import Mathlib

/-!
Verification of the natural-language specification of `src/app.py`
(Generator Output Peserta per JENIS TES) against the code.

The development shallowly embeds the two logic components of the app:

* `normalize_date_scalar` (app.py lines 67-100): date normalization of one
  scalar cell value to an `yyyy-mm-dd` string, with an ordered fallback
  chain (general `pd.to_datetime` parse, Excel-serial interpretation,
  explicit formats).
* the transform-and-group pipeline (app.py lines 190-238): required column
  mapping, per-row transform into the fixed output schema, the blank
  `JENIS_TES` degenerate check, and `groupby("JENIS_TES", dropna=False)`.

Cells of the participant table are read with `dtype=str`
(`read_sheet`, line 50), so a table cell is either a string or NaN and is
modelled as `Option String`.  `normalize_date_scalar` itself also accepts
numbers and `None`; its argument is modelled by `RawCell`.

Pandas / numpy / Python library behaviour reached by the code is modelled
from its documented semantics; each model definition carries a comment
saying what it models.  Dates are represented as calendar triples
(`Ymd`), and day arithmetic (Excel serials, nanosecond epoch offsets) is
performed by an explicit Gregorian year/month walk from the year 1600.
-/

set_option maxHeartbeats 1000000
set_option maxRecDepth 100000

/-- Calendar date triple: year, month, day. -/
structure Ymd where
  y : Int
  m : Int
  d : Int
deriving DecidableEq, Repr

/-- Gregorian leap-year predicate. -/
def isLeap (y : Int) : Bool :=
  y % 4 == 0 && (y % 100 != 0 || y % 400 == 0)

/-- Number of days in a Gregorian calendar year. -/
def daysInYear (y : Int) : Int :=
  if isLeap y then 366 else 365

/-- Number of days in month `m` of year `y` (months 1..12). -/
def daysInMonth (y m : Int) : Int :=
  if m = 2 then (if isLeap y then 29 else 28)
  else if m = 4 ∨ m = 6 ∨ m = 9 ∨ m = 11 then 30
  else 31

/-- A calendar-valid date: month in 1..12 and day within the month. -/
def validYmd (t : Ymd) : Prop :=
  1 ≤ t.m ∧ t.m ≤ 12 ∧ 1 ≤ t.d ∧ t.d ≤ daysInMonth t.y t.m

instance (t : Ymd) : Decidable (validYmd t) := by
  unfold validYmd; infer_instance

/-- Lexicographic order on calendar triples (the order of the timestamps
they denote). -/
def ymdLe (a b : Ymd) : Prop :=
  a.y < b.y ∨ (a.y = b.y ∧ (a.m < b.m ∨ (a.m = b.m ∧ a.d ≤ b.d)))

instance (a b : Ymd) : Decidable (ymdLe a b) := by
  unfold ymdLe; infer_instance

/-- Sum of `daysInYear` over `fuel` consecutive years starting at `y`. -/
def yearsSpan : Nat → Int → Int
  | 0, _ => 0
  | fuel + 1, y => daysInYear y + yearsSpan fuel (y + 1)

/-- Walk years from `y`: given `n` days after Jan 1 of year `y`, find the
year containing that day and the day-of-year offset.  `fuel` bounds the
number of steps; it is always instantiated with `n`, which suffices since
each step consumes at least 365 days. -/
def findYear : Nat → Int → Nat → Int × Nat
  | 0, y, n => (y, n)
  | fuel + 1, y, n =>
      if n < (daysInYear y).toNat then (y, n)
      else findYear fuel (y + 1) (n - (daysInYear y).toNat)

/-- Sum of `daysInMonth` over `fuel` consecutive months starting at `m`. -/
def monthsSpan : Nat → Int → Int → Int
  | 0, _, _ => 0
  | fuel + 1, y, m => daysInMonth y m + monthsSpan fuel y (m + 1)

/-- Walk months from `m`: given day-of-year remainder `r` (0-based), find
the month and (1-based) day.  Called with `fuel = 11`, `m = 1`, so the
walk covers months 1..12 and ends in December. -/
def findMonth : Nat → Int → Int → Int → Int × Int
  | 0, _, m, r => (m, r + 1)
  | fuel + 1, y, m, r =>
      if r < daysInMonth y m then (m, r + 1)
      else findMonth fuel y (m + 1) (r - daysInMonth y m)

/-- Number of days from 1600-01-01 to 1970-01-01 (the Unix epoch).  370
years, 90 of them leap. -/
def epochShift : Int := 135140

/-- Calendar date of the day `z` days after 1970-01-01 (negative `z` is
before the epoch).  Total function; faithful for any day number at or
after 1600-01-01, which covers the full pandas `Timestamp` range. -/
def civilOfZ (z : Int) : Ymd :=
  let n := (z + epochShift).toNat
  let yr := findYear n 1600 n
  let md := findMonth 11 yr.1 1 (yr.2 : Int)
  ⟨yr.1, md.1, md.2⟩

/-- First calendar day representable as a midnight `pandas.Timestamp`
(`Timestamp.min` is 1677-09-21T00:12:43, so the first valid midnight is
1677-09-22). -/
def tsMinYmd : Ymd := ⟨1677, 9, 22⟩

/-- Last calendar day representable as a `pandas.Timestamp`
(`Timestamp.max` is 2262-04-11T23:47:16). -/
def tsMaxYmd : Ymd := ⟨2262, 4, 11⟩

/-- Day number (relative to 1970-01-01) of `tsMinYmd`. -/
def tsMinZ : Int := -106751

/-- Day number (relative to 1970-01-01) of `tsMaxZ`. -/
def tsMaxZ : Int := 106751

theorem civilOfZ_epoch : civilOfZ 0 = ⟨1970, 1, 1⟩ := by decide

theorem civilOfZ_tsMin : civilOfZ tsMinZ = tsMinYmd := by decide

theorem civilOfZ_tsMax : civilOfZ tsMaxZ = tsMaxYmd := by decide

theorem civilOfZ_sliver : civilOfZ (-106752) = ⟨1677, 9, 21⟩ := by decide

theorem civilOfZ_excel_origin : civilOfZ (-25569) = ⟨1899, 12, 30⟩ := by decide

theorem daysInYear_ge (y : Int) : 365 ≤ daysInYear y := by
  unfold daysInYear; split <;> omega

theorem daysInMonth_ge (y m : Int) : 1 ≤ daysInMonth y m := by
  unfold daysInMonth; split
  · split <;> omega
  · split <;> omega

theorem daysInMonth_le (y m : Int) : daysInMonth y m ≤ 31 := by
  unfold daysInMonth; split
  · split <;> omega
  · split <;> omega

/-- Sum of the days of the `Y - y` years from `y` (inclusive) to `Y`
(exclusive). -/
def sumYears (y Y : Int) : Int := yearsSpan (Y - y).toNat y

theorem yearsSpan_nonneg (k : Nat) (y : Int) : 0 ≤ yearsSpan k y := by
  induction k generalizing y with
  | zero => simp [yearsSpan]
  | succ k ih =>
      have h1 := daysInYear_ge y
      have h2 := ih (y + 1)
      simp only [yearsSpan]
      omega

theorem yearsSpan_add (a b : Nat) (y : Int) :
    yearsSpan (a + b) y = yearsSpan a y + yearsSpan b (y + a) := by
  induction a generalizing y with
  | zero => simp [yearsSpan]
  | succ a ih =>
      have h := ih (y + 1)
      have hc : y + 1 + (a : Int) = y + (a + 1 : Nat) := by push_cast; ring
      simp only [Nat.succ_add, yearsSpan, h, hc]
      ring

theorem sumYears_self (y : Int) : sumYears y y = 0 := by
  simp [sumYears, yearsSpan]

theorem sumYears_succ_left (y Y : Int) (h : y < Y) :
    sumYears y Y = daysInYear y + sumYears (y + 1) Y := by
  unfold sumYears
  have h1 : (Y - y).toNat = (Y - (y + 1)).toNat + 1 := by omega
  rw [h1]
  have h2 : (Y - (y + 1)).toNat + 1 = 1 + (Y - (y + 1)).toNat := by omega
  rw [h2, yearsSpan_add]
  simp [yearsSpan]

theorem sumYears_succ_right (y Y : Int) (h : y ≤ Y) :
    sumYears y (Y + 1) = sumYears y Y + daysInYear Y := by
  unfold sumYears
  have h1 : (Y + 1 - y).toNat = (Y - y).toNat + 1 := by omega
  rw [h1, yearsSpan_add]
  have h2 : y + ((Y - y).toNat : Int) = Y := by omega
  rw [h2]
  simp [yearsSpan]

theorem sumYears_mono (y A B : Int) (h1 : y ≤ A) (h2 : A ≤ B) :
    sumYears y A ≤ sumYears y B := by
  unfold sumYears
  have h3 : (B - y).toNat = (A - y).toNat + (B - A).toNat := by omega
  rw [h3, yearsSpan_add]
  have h4 : y + ((A - y).toNat : Int) = A := by omega
  rw [h4]
  have := yearsSpan_nonneg (B - A).toNat A
  omega

/-- Specification of `findYear`: the result year is at or after the start
year, the day-of-year remainder is inside the result year, and the input
day count decomposes as the days of the skipped years plus the remainder.
Requires `n ≤ fuel`, which the single call site (`civilOfZ`) satisfies. -/
theorem findYear_spec (fuel : Nat) (y : Int) (n : Nat) (hn : n ≤ fuel) :
    y ≤ (findYear fuel y n).1 ∧
    ((findYear fuel y n).2 : Int) < daysInYear (findYear fuel y n).1 ∧
    (n : Int) = sumYears y (findYear fuel y n).1 + ((findYear fuel y n).2 : Int) := by
  induction fuel generalizing y n with
  | zero =>
      have hn0 : n = 0 := by omega
      subst hn0
      have := daysInYear_ge y
      simp [findYear, sumYears_self]
      omega
  | succ fuel ih =>
      by_cases h : n < (daysInYear y).toNat
      · simp only [findYear, if_pos h]
        have := daysInYear_ge y
        simp [sumYears_self]
        omega
      · simp only [findYear, if_neg h]
        have hy := daysInYear_ge y
        have hrec : n - (daysInYear y).toNat ≤ fuel := by omega
        have := ih (y + 1) (n - (daysInYear y).toNat) hrec
        obtain ⟨ha, hb, hc⟩ := this
        refine ⟨by omega, hb, ?_⟩
        have hlt : y < (findYear fuel (y + 1) (n - (daysInYear y).toNat)).1 := by omega
        rw [sumYears_succ_left _ _ hlt]
        have hcast : ((n - (daysInYear y).toNat : Nat) : Int)
            = (n : Int) - daysInYear y := by omega
        omega

/-- Sum of the days of the months from `m` (inclusive) to `M`
(exclusive) in year `y`. -/
def sumMonths (y m M : Int) : Int := monthsSpan (M - m).toNat y m

theorem monthsSpan_add (a b : Nat) (y m : Int) :
    monthsSpan (a + b) y m = monthsSpan a y m + monthsSpan b y (m + a) := by
  induction a generalizing m with
  | zero => simp [monthsSpan]
  | succ a ih =>
      have h := ih (m + 1)
      have hc : m + 1 + (a : Int) = m + (a + 1 : Nat) := by push_cast; ring
      simp only [Nat.succ_add, monthsSpan, h, hc]
      ring

theorem sumMonths_self (y m : Int) : sumMonths y m m = 0 := by
  simp [sumMonths, monthsSpan]

theorem sumMonths_succ_left (y m M : Int) (h : m < M) :
    sumMonths y m M = daysInMonth y m + sumMonths y (m + 1) M := by
  unfold sumMonths
  have h1 : (M - m).toNat = 1 + (M - (m + 1)).toNat := by omega
  rw [h1, monthsSpan_add]
  simp [monthsSpan]

theorem sumMonths_succ_right (y m M : Int) (h : m ≤ M) :
    sumMonths y m (M + 1) = sumMonths y m M + daysInMonth y M := by
  unfold sumMonths
  have h1 : (M + 1 - m).toNat = (M - m).toNat + 1 := by omega
  rw [h1, monthsSpan_add]
  have h2 : m + ((M - m).toNat : Int) = M := by omega
  rw [h2]
  simp [monthsSpan]

theorem monthsSpan_nonneg (k : Nat) (y m : Int) : 0 ≤ monthsSpan k y m := by
  induction k generalizing m with
  | zero => simp [monthsSpan]
  | succ k ih =>
      have h1 := daysInMonth_ge y m
      have h2 := ih (m + 1)
      simp only [monthsSpan]
      omega

theorem sumMonths_mono (y m A B : Int) (h1 : m ≤ A) (h2 : A ≤ B) :
    sumMonths y m A ≤ sumMonths y m B := by
  unfold sumMonths
  have h3 : (B - m).toNat = (A - m).toNat + (B - A).toNat := by omega
  rw [h3, monthsSpan_add]
  have h4 : m + ((A - m).toNat : Int) = A := by omega
  rw [h4]
  have := monthsSpan_nonneg (B - A).toNat y A
  omega

/-- Specification of `findMonth`: the result month lies between the start
month and the start month plus the fuel, the result day is inside the
result month, and the remainder decomposes as the days of the skipped
months plus the (0-based) day.  Requires the remainder to fit within the
months the fuel can reach. -/
theorem findMonth_spec (fuel : Nat) (y m : Int) (r : Int) (h0 : 0 ≤ r)
    (h1 : r < monthsSpan (fuel + 1) y m) :
    m ≤ (findMonth fuel y m r).1 ∧
    ((findMonth fuel y m r).1 : Int) ≤ m + fuel ∧
    1 ≤ (findMonth fuel y m r).2 ∧
    (findMonth fuel y m r).2 ≤ daysInMonth y (findMonth fuel y m r).1 ∧
    r = sumMonths y m (findMonth fuel y m r).1 + (findMonth fuel y m r).2 - 1 := by
  induction fuel generalizing m r with
  | zero =>
      simp only [monthsSpan] at h1
      simp [findMonth, sumMonths_self]
      omega
  | succ fuel ih =>
      by_cases h : r < daysInMonth y m
      · simp only [findMonth, if_pos h]
        simp [sumMonths_self]
        omega
      · simp only [findMonth, if_neg h]
        have hd := daysInMonth_ge y m
        have hrec0 : 0 ≤ r - daysInMonth y m := by omega
        have hrec1 : r - daysInMonth y m < monthsSpan (fuel + 1) y (m + 1) := by
          rw [monthsSpan] at h1
          omega
        have := ih (m + 1) (r - daysInMonth y m) hrec0 hrec1
        obtain ⟨ha, hb, hc, hd2, he⟩ := this
        refine ⟨by omega, by push_cast; omega, hc, hd2, ?_⟩
        have hlt : m < (findMonth fuel y (m + 1) (r - daysInMonth y m)).1 := by omega
        rw [sumMonths_succ_left _ _ _ hlt]
        omega

theorem monthsSpan_year (y : Int) : monthsSpan 12 y 1 = daysInYear y := by
  have e : monthsSpan 12 y 1 =
      daysInMonth y 1 + (daysInMonth y 2 + (daysInMonth y 3 + (daysInMonth y 4 +
      (daysInMonth y 5 + (daysInMonth y 6 + (daysInMonth y 7 + (daysInMonth y 8 +
      (daysInMonth y 9 + (daysInMonth y 10 + (daysInMonth y 11 +
      (daysInMonth y 12 + 0))))))))))) := rfl
  rw [e]
  by_cases h : isLeap y <;>
    simp [daysInMonth, daysInYear, h]

theorem monthsSpan_year12 (y : Int) : monthsSpan (11 + 1) y 1 = daysInYear y := by
  have h : (11 + 1 : Nat) = 12 := rfl
  rw [h, monthsSpan_year]

/-- Instantiation of `findMonth_spec` at a full year walk (months 1..12). -/
theorem findMonth12_spec (y : Int) (r : Int) (h0 : 0 ≤ r) (h1 : r < daysInYear y) :
    1 ≤ (findMonth 11 y 1 r).1 ∧ (findMonth 11 y 1 r).1 ≤ 12 ∧
    1 ≤ (findMonth 11 y 1 r).2 ∧
    (findMonth 11 y 1 r).2 ≤ daysInMonth y (findMonth 11 y 1 r).1 ∧
    r = sumMonths y 1 (findMonth 11 y 1 r).1 + (findMonth 11 y 1 r).2 - 1 := by
  have h2 : r < monthsSpan (11 + 1) y 1 := by rw [monthsSpan_year12]; exact h1
  obtain ⟨a, b, c, d, e⟩ := findMonth_spec 11 y 1 r h0 h2
  refine ⟨a, ?_, c, d, e⟩
  have hb : ((findMonth 11 y 1 r).1 : Int) ≤ 1 + ((11 : Nat) : Int) := b
  simp at hb
  omega

/-- Every date produced by `civilOfZ` is calendar-valid. -/
theorem civilOfZ_valid (z : Int) : validYmd (civilOfZ z) := by
  simp only [civilOfZ]
  set n := (z + epochShift).toNat with hn
  obtain ⟨hy, hr, hsum⟩ := findYear_spec n 1600 n (le_refl n)
  set Y := (findYear n 1600 n).1
  set r := (findYear n 1600 n).2
  obtain ⟨ha, hb, hc, hd, he⟩ := findMonth12_spec Y (r : Int) (by omega) hr
  exact ⟨ha, hb, hc, hd⟩

theorem findYear_mono (f1 f2 : Nat) (y : Int) (n1 n2 : Nat)
    (h1 : n1 ≤ f1) (h2 : n2 ≤ f2) (hle : n1 ≤ n2) :
    (findYear f1 y n1).1 < (findYear f2 y n2).1 ∨
    ((findYear f1 y n1).1 = (findYear f2 y n2).1 ∧
      (findYear f1 y n1).2 ≤ (findYear f2 y n2).2) := by
  obtain ⟨a1, b1, c1⟩ := findYear_spec f1 y n1 h1
  obtain ⟨a2, b2, c2⟩ := findYear_spec f2 y n2 h2
  set Y1 := (findYear f1 y n1).1
  set Y2 := (findYear f2 y n2).1
  rcases lt_trichotomy Y1 Y2 with h | h | h
  · exact Or.inl h
  · right
    refine ⟨h, ?_⟩
    rw [h] at c1
    omega
  · exfalso
    have hs1 : sumYears y (Y2 + 1) = sumYears y Y2 + daysInYear Y2 :=
      sumYears_succ_right y Y2 a2
    have hs2 : sumYears y (Y2 + 1) ≤ sumYears y Y1 :=
      sumYears_mono y (Y2 + 1) Y1 (by omega) (by omega)
    omega

theorem findMonth_mono (fuel : Nat) (y m : Int) (r1 r2 : Int)
    (h01 : 0 ≤ r1) (h11 : r1 < monthsSpan (fuel + 1) y m)
    (h02 : 0 ≤ r2) (h12 : r2 < monthsSpan (fuel + 1) y m)
    (hle : r1 ≤ r2) :
    (findMonth fuel y m r1).1 < (findMonth fuel y m r2).1 ∨
    ((findMonth fuel y m r1).1 = (findMonth fuel y m r2).1 ∧
      (findMonth fuel y m r1).2 ≤ (findMonth fuel y m r2).2) := by
  obtain ⟨a1, b1, c1, d1, e1⟩ := findMonth_spec fuel y m r1 h01 h11
  obtain ⟨a2, b2, c2, d2, e2⟩ := findMonth_spec fuel y m r2 h02 h12
  set M1 := (findMonth fuel y m r1).1
  set M2 := (findMonth fuel y m r2).1
  rcases lt_trichotomy M1 M2 with h | h | h
  · exact Or.inl h
  · right
    refine ⟨h, ?_⟩
    rw [h] at e1
    omega
  · exfalso
    have hs1 : sumMonths y m (M2 + 1) = sumMonths y m M2 + daysInMonth y M2 :=
      sumMonths_succ_right y m M2 a2
    have hs2 : sumMonths y m (M2 + 1) ≤ sumMonths y m M1 :=
      sumMonths_mono y m (M2 + 1) M1 (by omega) (by omega)
    omega

/-- Dates produced by `civilOfZ` are ordered like their day numbers. -/
theorem civilOfZ_mono (z1 z2 : Int) (h : z1 ≤ z2) :
    ymdLe (civilOfZ z1) (civilOfZ z2) := by
  simp only [civilOfZ]
  set n1 := (z1 + epochShift).toNat with hn1
  set n2 := (z2 + epochShift).toNat with hn2
  have hnle : n1 ≤ n2 := by omega
  obtain ⟨hy1, hr1, hsum1⟩ := findYear_spec n1 1600 n1 (le_refl n1)
  obtain ⟨hy2, hr2, hsum2⟩ := findYear_spec n2 1600 n2 (le_refl n2)
  rcases findYear_mono n1 n2 1600 n1 n2 (le_refl n1) (le_refl n2) hnle with hY | ⟨hY, hr⟩
  · exact Or.inl hY
  · set Y := (findYear n1 1600 n1).1 with hYdef
    rw [← hY] at hr2
    have hm1 : ((findYear n1 1600 n1).2 : Int) < monthsSpan (11 + 1) Y 1 := by
      rw [monthsSpan_year12]
      exact hr1
    have hm2 : ((findYear n2 1600 n2).2 : Int) < monthsSpan (11 + 1) Y 1 := by
      rw [monthsSpan_year12]
      exact hr2
    have hrle : ((findYear n1 1600 n1).2 : Int) ≤ ((findYear n2 1600 n2).2 : Int) := by
      omega
    have := findMonth_mono 11 Y 1
      ((findYear n1 1600 n1).2 : Int) ((findYear n2 1600 n2).2 : Int)
      (by omega) hm1 (by omega) hm2 hrle
    rcases this with hM | ⟨hM, hD⟩
    · right
      refine ⟨hY.symm ▸ rfl, ?_⟩
      left
      rw [hY] at hM ⊢
      exact hM
    · right
      refine ⟨hY.symm ▸ rfl, ?_⟩
      right
      rw [hY] at hM hD ⊢
      exact ⟨hM, hD⟩

/-- Dates of in-range day numbers lie between the pandas `Timestamp`
boundary dates. -/
theorem civilOfZ_bounds (z : Int) (h1 : tsMinZ ≤ z) (h2 : z ≤ tsMaxZ) :
    ymdLe tsMinYmd (civilOfZ z) ∧ ymdLe (civilOfZ z) tsMaxYmd := by
  constructor
  · have := civilOfZ_mono tsMinZ z h1
    rwa [civilOfZ_tsMin] at this
  · have := civilOfZ_mono z tsMaxZ h2
    rwa [civilOfZ_tsMax] at this

/-- ASCII digit test. -/
def isDigitB (c : Char) : Bool := 48 ≤ c.toNat && c.toNat ≤ 57

/-- Whitespace characters removed by Python `str.strip()` (ASCII range;
the app's spreadsheet cells contain no exotic Unicode whitespace): the
space character, code point 32, and the control characters tab through
carriage return, code points 9..13. -/
def isPySpace (c : Char) : Bool :=
  c.toNat == 32 || (9 ≤ c.toNat && c.toNat ≤ 13)

/-- Model of Python `str.strip()`: remove leading and trailing whitespace. -/
def pyStrip (s : String) : String :=
  ⟨((s.data.dropWhile isPySpace).reverse.dropWhile isPySpace).reverse⟩

/-- Model of `re.sub(r"\.0$", "", s)` (app.py line 206): remove a single
trailing literal `.0`, if present. -/
def strip_dot0 (s : String) : String :=
  if s.data.reverse.take 2 = ['0', '.'] then ⟨(s.data.reverse.drop 2).reverse⟩
  else s

/-- Value of a list of ASCII digit characters, most significant first. -/
def digitsToNat (l : List Char) : Nat :=
  l.foldl (fun a c => 10 * a + (c.toNat - 48)) 0

/-- Four-digit zero-padded decimal rendering: `strftime` `%Y` output for
years up to 9999 (every pandas `Timestamp` year lies in 1677..2262, so the
truncation of larger numbers is never exercised). -/
def render4 (n : Nat) : List Char :=
  [Nat.digitChar (n / 1000 % 10), Nat.digitChar (n / 100 % 10),
   Nat.digitChar (n / 10 % 10), Nat.digitChar (n % 10)]

/-- Two-digit zero-padded decimal rendering: `strftime` `%m` / `%d`. -/
def render2 (n : Nat) : List Char :=
  [Nat.digitChar (n / 10 % 10), Nat.digitChar (n % 10)]

/-- Model of `Timestamp.strftime("%Y-%m-%d")` (app.py lines 78, 88, 97). -/
def strftimeYmd (t : Ymd) : String :=
  ⟨render4 t.y.toNat ++ ('-' :: render2 t.m.toNat) ++ ('-' :: render2 t.d.toNat)⟩

/-- Decidable check that a string has the shape `YYYY-MM-DD` (four digits,
dash, two digits, dash, two digits). -/
def isYYYYMMDD (s : String) : Bool :=
  match s.data with
  | [a, b, c, d, e, f, g, h, i, j] =>
      isDigitB a && isDigitB b && isDigitB c && isDigitB d && (e == '-') &&
      isDigitB f && isDigitB g && (h == '-') && isDigitB i && isDigitB j
  | _ => false

theorem isDigitB_digitChar (j : Nat) (h : j < 10) :
    isDigitB (Nat.digitChar j) = true := by
  have hall : ∀ i < 10, isDigitB (Nat.digitChar i) = true := by decide
  exact hall j h

theorem isDigitB_digitChar_mod (k : Nat) :
    isDigitB (Nat.digitChar (k % 10)) = true :=
  isDigitB_digitChar _ (Nat.mod_lt _ (by omega))

theorem toNat_digitChar (j : Nat) (h : j < 10) :
    (Nat.digitChar j).toNat = 48 + j := by
  have hall : ∀ i < 10, (Nat.digitChar i).toNat = 48 + i := by decide
  exact hall j h

theorem not_space_of_digit (c : Char) (h : isDigitB c = true) :
    isPySpace c = false := by
  simp only [isDigitB, Bool.and_eq_true, decide_eq_true_eq] at h
  simp only [isPySpace, Bool.or_eq_false_iff, Bool.and_eq_false_iff,
    beq_eq_false_iff_ne, ne_eq, decide_eq_false_iff_not]
  constructor
  · omega
  · right
    omega

theorem not_space_digitChar_mod (k : Nat) :
    isPySpace (Nat.digitChar (k % 10)) = false :=
  not_space_of_digit _ (isDigitB_digitChar_mod k)

/-- The shape check always accepts the output of `strftimeYmd`. -/
theorem isYYYYMMDD_strftime (t : Ymd) : isYYYYMMDD (strftimeYmd t) = true := by
  simp only [strftimeYmd, render4, render2, List.cons_append, List.nil_append,
    isYYYYMMDD, isDigitB_digitChar_mod]
  decide

theorem digitsToNat_render4 (n : Nat) (h : n ≤ 9999) :
    digitsToNat (render4 n) = n := by
  simp only [digitsToNat, render4, List.foldl]
  rw [toNat_digitChar _ (Nat.mod_lt _ (by omega)),
    toNat_digitChar _ (Nat.mod_lt _ (by omega)),
    toNat_digitChar _ (Nat.mod_lt _ (by omega)),
    toNat_digitChar _ (Nat.mod_lt _ (by omega))]
  omega

theorem digitsToNat_render2 (n : Nat) (h : n ≤ 99) :
    digitsToNat (render2 n) = n := by
  simp only [digitsToNat, render2, List.foldl]
  rw [toNat_digitChar _ (Nat.mod_lt _ (by omega)),
    toNat_digitChar _ (Nat.mod_lt _ (by omega))]
  omega

/-- Split a character list into three all-digit groups separated by two
single separator characters (the lexical shape of the delimited date
strings handled by the pandas string parser).  Fails when a group is empty
or trailing characters remain. -/
def splitDateTokens (l : List Char) :
    Option (List Char × Char × List Char × Char × List Char) :=
  let g1 := l.takeWhile isDigitB
  let r1 := l.dropWhile isDigitB
  match r1 with
  | [] => none
  | s1 :: r2 =>
      let g2 := r2.takeWhile isDigitB
      let r3 := r2.dropWhile isDigitB
      match r3 with
      | [] => none
      | s2 :: r4 =>
          let g3 := r4.takeWhile isDigitB
          let r5 := r4.dropWhile isDigitB
          if g1 ≠ [] ∧ g2 ≠ [] ∧ g3 ≠ [] ∧ r5 = [] then some (g1, s1, g2, s2, g3)
          else none

/-- Build the date of a parsed midnight timestamp, failing when the triple
is not calendar-valid or the timestamp falls outside the pandas
`Timestamp` range (models the `ValueError` / `OutOfBoundsDatetime` raised
by pandas datetime construction, e.g. for `"1/2/2299"` or `"2023-02-30"`). -/
def mkChecked (y m d : Int) : Option Ymd :=
  if validYmd ⟨y, m, d⟩ ∧ ymdLe tsMinYmd ⟨y, m, d⟩ ∧ ymdLe ⟨y, m, d⟩ tsMaxYmd then
    some ⟨y, m, d⟩
  else none

/-- Model of the general `pd.to_datetime` parse on a whitespace-stripped
all-digit string: a value below 1000 is rejected as "not likely a
datetime"; a 4-digit string parses as a bare year (January 1st); an
8-digit string parses as `yyyymmdd`; other digit strings fail (the
dateutil fallback cannot interpret them). -/
def parseBareDigits (l : List Char) : Option Ymd :=
  if digitsToNat l < 1000 then none
  else if l.length = 4 then mkChecked (digitsToNat l) 1 1
  else if l.length = 8 then
    mkChecked (digitsToNat (l.take 4)) (digitsToNat ((l.drop 4).take 2))
      (digitsToNat (l.drop 6))
  else none

/-- Model of `pd.to_datetime(x, errors="raise", dayfirst=True)` on a string
(app.py line 77).  Covers the shapes relevant to the claims: bare digit
strings, ISO dates (`yyyy-mm-dd`, `yyyy/mm/dd`), and delimited day-first
dates (`dd-mm-yyyy`, `dd/mm/yyyy`, with the pandas month/day swap when the
day-first reading is invalid).  Anything else returns `none`; strings this
model declines but real pandas might parse (such as month names or
time-of-day suffixes, which the spec sentences under test do not mention)
only add further successful parses of in-range dates, so no claim verdict
depends on them.  `none` also stands for the strings pandas turns into
`NaT` ("nan", "NaT", ""): `NaT.strftime` raises, which the surrounding
`except` treats the same as a parse failure. -/
def pd_general_parse (s : String) : Option Ymd :=
  let l := (pyStrip s).data
  if l = [] then none
  else if l.all isDigitB then parseBareDigits l
  else
    match splitDateTokens l with
    | some (g1, s1, g2, s2, g3) =>
        if (s1 = '-' ∨ s1 = '/') ∧ s2 = s1 then
          if g1.length = 4 ∧ 1 ≤ g2.length ∧ g2.length ≤ 2 ∧
              1 ≤ g3.length ∧ g3.length ≤ 2 then
            mkChecked (digitsToNat g1) (digitsToNat g2) (digitsToNat g3)
          else if 1 ≤ g1.length ∧ g1.length ≤ 2 ∧ 1 ≤ g2.length ∧
              g2.length ≤ 2 ∧ g3.length = 4 then
            match mkChecked (digitsToNat g3) (digitsToNat g2) (digitsToNat g1) with
            | some t => some t
            | none => mkChecked (digitsToNat g3) (digitsToNat g1) (digitsToNat g2)
          else none
        else none
    | none => none

/-- Model of `re.fullmatch(r"\d+(\.\d+)?", x)` followed by `float(x)`
(app.py lines 84-85): an all-digit string with an optional fractional
part.  Returns the integer part, which is the whole-day count seen by
`to_datetime(..., unit="D")`; the fractional part only moves the
timestamp within the same day and cannot change the formatted date. -/
def serialValue (l : List Char) : Option Nat :=
  let g1 := l.takeWhile isDigitB
  let r1 := l.dropWhile isDigitB
  if g1 = [] then none
  else
    match r1 with
    | [] => some (digitsToNat g1)
    | '.' :: fr => if fr ≠ [] ∧ fr.all isDigitB then some (digitsToNat g1) else none
    | _ => none

/-- Model of `pd.to_datetime(val, unit="D", origin="1899-12-30")`
(app.py line 87): the timestamp `val` days after 1899-12-30, which is day
number -25569 relative to 1970-01-01 (`civilOfZ_excel_origin`).
Out-of-range values raise `OutOfBoundsDatetime`, modelled as `none`. -/
def excelSerialDate (v : Int) : Option Ymd :=
  if tsMinZ ≤ -25569 + v ∧ -25569 + v ≤ tsMaxZ then some (civilOfZ (-25569 + v))
  else none

/-- Model of `pd.to_datetime(v, errors="raise", dayfirst=True)` on an
integer-valued number (app.py line 77): `v` counts nanoseconds since
1970-01-01T00:00; values outside the signed 64-bit range raise.  The
formatted date is the calendar day containing the timestamp, i.e. the
floor of `v` in days.  (A float's fractional nanoseconds cannot move the
result to another day, so integer values model all numeric cells.) -/
def pd_num_parse (v : Int) : Option Ymd :=
  if -9223372036854775808 < v ∧ v < 9223372036854775808 then
    some (civilOfZ (v / 86400000000000))
  else none

/-- Lowercase an ASCII letter (Python `strptime` month names are matched
case-insensitively). -/
def toLowerChar (c : Char) : Char :=
  if 65 ≤ c.toNat ∧ c.toNat ≤ 90 then Char.ofNat (c.toNat + 32) else c

/-- English month abbreviations recognised by `strptime` `%b` in the C
locale. -/
def monthNamesShort : List String :=
  ["jan", "feb", "mar", "apr", "may", "jun",
   "jul", "aug", "sep", "oct", "nov", "dec"]

/-- English month names recognised by `strptime` `%B` in the C locale. -/
def monthNamesLong : List String :=
  ["january", "february", "march", "april", "may", "june", "july",
   "august", "september", "october", "november", "december"]

/-- Model of `pd.to_datetime(s, format=fmt)` for `fmt` of the shape
day-separator-month-separator-year (`%d/%m/%Y`, `%d-%m-%Y`): `%d` and
`%m` match one or two digits, `%Y` exactly four; the whole string must be
consumed. -/
def tryFormatDMY (l : List Char) (sep : Char) : Option Ymd :=
  match splitDateTokens l with
  | some (g1, s1, g2, s2, g3) =>
      if s1 = sep ∧ s2 = sep ∧ 1 ≤ g1.length ∧ g1.length ≤ 2 ∧
          1 ≤ g2.length ∧ g2.length ≤ 2 ∧ g3.length = 4 then
        mkChecked (digitsToNat g3) (digitsToNat g2) (digitsToNat g1)
      else none
  | none => none

/-- Model of `pd.to_datetime(s, format=fmt)` for `fmt` of the shape
year-separator-month-separator-day (`%Y/%m/%d`, `%Y-%m-%d`). -/
def tryFormatYMD (l : List Char) (sep : Char) : Option Ymd :=
  match splitDateTokens l with
  | some (g1, s1, g2, s2, g3) =>
      if s1 = sep ∧ s2 = sep ∧ g1.length = 4 ∧ 1 ≤ g2.length ∧
          g2.length ≤ 2 ∧ 1 ≤ g3.length ∧ g3.length ≤ 2 then
        mkChecked (digitsToNat g1) (digitsToNat g2) (digitsToNat g3)
      else none
  | none => none

/-- Model of `pd.to_datetime(s, format=fmt)` for `%d %b %Y` / `%d %B %Y`:
one or two digits, a space, a month name from `names` (case-insensitive),
a space, four digits. -/
def tryFormatDMonY (l : List Char) (names : List String) : Option Ymd :=
  let g1 := l.takeWhile isDigitB
  let r1 := l.dropWhile isDigitB
  match r1 with
  | ' ' :: r2 =>
      let w := r2.takeWhile (fun c => !(c == ' '))
      let r3 := r2.dropWhile (fun c => !(c == ' '))
      match r3 with
      | ' ' :: r4 =>
          if 1 ≤ g1.length ∧ g1.length ≤ 2 ∧ r4.length = 4 ∧ r4.all isDigitB then
            match names.findIdx? (fun nm => nm.data == w.map toLowerChar) with
            | some i => mkChecked (digitsToNat r4) ((i : Int) + 1) (digitsToNat g1)
            | none => none
          else none
      | _ => none
  | _ => none

/-- Model of the explicit-format loop (app.py lines 92-99): try
`%d/%m/%Y`, `%d-%m-%Y`, `%Y/%m/%d`, `%Y-%m-%d`, `%d %b %Y`, `%d %B %Y`
in order on the stripped string; the first success wins. -/
def tryManualFormats (s : String) : Option Ymd :=
  let l := (pyStrip s).data
  (tryFormatDMY l '/').orElse fun _ =>
  (tryFormatDMY l '-').orElse fun _ =>
  (tryFormatYMD l '/').orElse fun _ =>
  (tryFormatYMD l '-').orElse fun _ =>
  (tryFormatDMonY l monthNamesShort).orElse fun _ =>
  tryFormatDMonY l monthNamesLong

/-- One raw spreadsheet cell value as seen by `normalize_date_scalar`:
Python `None`, the float `NaN` (what `dtype=str` reading yields for an
empty cell), a number, or a string. -/
inductive RawCell where
  | pynone : RawCell
  | nan : RawCell
  | num (v : Int) : RawCell
  | str (s : String) : RawCell

/-- Shallow embedding of `normalize_date_scalar` (app.py lines 67-100).

* `None` returns `""` (line 70-71); a blank string returns `""` (line 73).
* `NaN` returns `""`: `pd.to_datetime(nan)` yields `NaT` without raising,
  `NaT.strftime` then raises (caught, line 79); in the serial branch
  `np.isnan(val)` skips conversion (line 86); `NaN` is not a string, so
  the format loop is skipped and the fall-through `""` is returned.
* a number takes the general-parse branch as nanoseconds since the epoch
  (`pd_num_parse`); on failure (out of 64-bit range) the serial branch
  also fails, and the fall-through returns `""`.
* a string tries the general parse (line 77), then the serial
  interpretation guarded by the digit regex (lines 84-88), then the
  explicit format loop (lines 92-99), and finally returns `""` (line 100).
-/
def normalize_date_scalar : RawCell → String
  | .pynone => ""
  | .nan => ""
  | .num v =>
      match pd_num_parse v with
      | some t => strftimeYmd t
      | none =>
          match excelSerialDate v with
          | some t => strftimeYmd t
          | none => ""
  | .str s =>
      if pyStrip s = "" then ""
      else
        match pd_general_parse s with
        | some t => strftimeYmd t
        | none =>
            match serialValue s.data with
            | some n =>
                match excelSerialDate (n : Int) with
                | some t => strftimeYmd t
                | none =>
                    match tryManualFormats s with
                    | some t => strftimeYmd t
                    | none => ""
            | none =>
                match tryManualFormats s with
                | some t => strftimeYmd t
                | none => ""

/-- A date representable as a midnight pandas `Timestamp`: calendar-valid
and within the `Timestamp` range. -/
def okYmd (t : Ymd) : Prop :=
  validYmd t ∧ ymdLe tsMinYmd t ∧ ymdLe t tsMaxYmd

theorem mkChecked_ok {y m d : Int} {t : Ymd} (h : mkChecked y m d = some t) :
    okYmd t ∧ t = ⟨y, m, d⟩ := by
  unfold mkChecked at h
  split at h
  · rename_i hc
    injection h with h1
    subst h1
    exact ⟨hc, rfl⟩
  · exact Option.noConfusion h

theorem parseBareDigits_ok {l : List Char} {t : Ymd}
    (h : parseBareDigits l = some t) : okYmd t := by
  unfold parseBareDigits at h
  split at h
  · exact Option.noConfusion h
  · split at h
    · exact (mkChecked_ok h).1
    · split at h
      · exact (mkChecked_ok h).1
      · exact Option.noConfusion h

theorem pd_general_parse_ok {s : String} {t : Ymd}
    (h : pd_general_parse s = some t) : okYmd t := by
  simp only [pd_general_parse] at h
  split at h
  · exact Option.noConfusion h
  · split at h
    · exact parseBareDigits_ok h
    · split at h
      · split at h
        · split at h
          · exact (mkChecked_ok h).1
          · split at h
            · split at h
              · rename_i t' heq
                injection h with h1
                subst h1
                exact (mkChecked_ok heq).1
              · exact (mkChecked_ok h).1
            · exact Option.noConfusion h
        · exact Option.noConfusion h
      · exact Option.noConfusion h

theorem excelSerialDate_ok {v : Int} {t : Ymd}
    (h : excelSerialDate v = some t) : okYmd t := by
  unfold excelSerialDate at h
  split at h
  · rename_i hc
    injection h with h1
    subst h1
    obtain ⟨h1, h2⟩ := civilOfZ_bounds (-25569 + v) hc.1 hc.2
    exact ⟨civilOfZ_valid _, h1, h2⟩
  · exact Option.noConfusion h

theorem tryFormatDMY_ok {l : List Char} {sep : Char} {t : Ymd}
    (h : tryFormatDMY l sep = some t) : okYmd t := by
  unfold tryFormatDMY at h
  split at h
  · split at h
    · exact (mkChecked_ok h).1
    · exact Option.noConfusion h
  · exact Option.noConfusion h

theorem tryFormatYMD_ok {l : List Char} {sep : Char} {t : Ymd}
    (h : tryFormatYMD l sep = some t) : okYmd t := by
  unfold tryFormatYMD at h
  split at h
  · split at h
    · exact (mkChecked_ok h).1
    · exact Option.noConfusion h
  · exact Option.noConfusion h

theorem tryFormatDMonY_ok {l : List Char} {names : List String} {t : Ymd}
    (h : tryFormatDMonY l names = some t) : okYmd t := by
  simp only [tryFormatDMonY] at h
  split at h
  · split at h
    · split at h
      · split at h
        · exact (mkChecked_ok h).1
        · exact Option.noConfusion h
      · exact Option.noConfusion h
    · exact Option.noConfusion h
  · exact Option.noConfusion h

theorem tryManualFormats_ok {s : String} {t : Ymd}
    (h : tryManualFormats s = some t) : okYmd t := by
  unfold tryManualFormats at h
  simp only [Option.orElse] at h
  split at h
  · rename_i heq
    injection h with h1
    subst h1
    exact tryFormatDMY_ok heq
  · split at h
    · rename_i heq
      injection h with h1
      subst h1
      exact tryFormatDMY_ok heq
    · split at h
      · rename_i heq
        injection h with h1
        subst h1
        exact tryFormatYMD_ok heq
      · split at h
        · rename_i heq
          injection h with h1
          subst h1
          exact tryFormatYMD_ok heq
        · split at h
          · rename_i heq
            injection h with h1
            subst h1
            exact tryFormatDMonY_ok heq
          · exact tryFormatDMonY_ok h

theorem pd_num_parse_some {v : Int} {t : Ymd} (h : pd_num_parse v = some t) :
    okYmd t ∨ t = ⟨1677, 9, 21⟩ := by
  unfold pd_num_parse at h
  split at h
  · rename_i hc
    injection h with h1
    subst h1
    have hz : -106752 ≤ v / 86400000000000 ∧ v / 86400000000000 ≤ 106751 := by
      omega
    by_cases hedge : v / 86400000000000 = -106752
    · right
      rw [hedge]
      exact civilOfZ_sliver
    · left
      have hlo : tsMinZ ≤ v / 86400000000000 := by
        unfold tsMinZ
        omega
      have hhi : v / 86400000000000 ≤ tsMaxZ := by
        unfold tsMaxZ
        omega
      obtain ⟨h1, h2⟩ := civilOfZ_bounds _ hlo hhi
      exact ⟨civilOfZ_valid _, h1, h2⟩
  · exact Option.noConfusion h

/-- Every non-empty output of `normalize_date_scalar` is the formatted
form of a calendar-valid date that is either a midnight-representable
`Timestamp` day or the boundary day 1677-09-21 (reachable only through
the nanosecond branch). -/
theorem normalize_output (x : RawCell) :
    normalize_date_scalar x = "" ∨
    ∃ t : Ymd, (okYmd t ∨ t = ⟨1677, 9, 21⟩) ∧
      normalize_date_scalar x = strftimeYmd t := by
  cases x with
  | pynone => exact Or.inl rfl
  | nan => exact Or.inl rfl
  | num v =>
      simp only [normalize_date_scalar]
      cases h1 : pd_num_parse v with
      | some t => exact Or.inr ⟨t, pd_num_parse_some h1, rfl⟩
      | none =>
          cases h2 : excelSerialDate v with
          | some t => exact Or.inr ⟨t, Or.inl (excelSerialDate_ok h2), rfl⟩
          | none => exact Or.inl rfl
  | str s =>
      simp only [normalize_date_scalar]
      by_cases hb : pyStrip s = ""
      · rw [if_pos hb]
        exact Or.inl rfl
      · rw [if_neg hb]
        cases h1 : pd_general_parse s with
        | some t => exact Or.inr ⟨t, Or.inl (pd_general_parse_ok h1), rfl⟩
        | none =>
            dsimp only
            cases h2 : serialValue s.data with
            | some n =>
                dsimp only
                cases h3 : excelSerialDate (n : Int) with
                | some t => exact Or.inr ⟨t, Or.inl (excelSerialDate_ok h3), rfl⟩
                | none =>
                    dsimp only
                    cases h4 : tryManualFormats s with
                    | some t => exact Or.inr ⟨t, Or.inl (tryManualFormats_ok h4), rfl⟩
                    | none => exact Or.inl rfl
            | none =>
                dsimp only
                cases h4 : tryManualFormats s with
                | some t => exact Or.inr ⟨t, Or.inl (tryManualFormats_ok h4), rfl⟩
                | none => exact Or.inl rfl

theorem takeWhile_append_of_all {p : Char → Bool} :
    ∀ xs ys : List Char, (∀ c ∈ xs, p c = true) →
      (xs ++ ys).takeWhile p = xs ++ ys.takeWhile p
  | [], _, _ => by simp
  | a :: t, ys, h => by
      have hpa : p a = true := h a (List.mem_cons_self a t)
      have ht : ∀ c ∈ t, p c = true := fun c hc => h c (List.mem_cons_of_mem a hc)
      calc ((a :: t) ++ ys).takeWhile p
          = a :: (t ++ ys).takeWhile p := by
            rw [List.cons_append, List.takeWhile_cons, if_pos hpa]
        _ = (a :: t) ++ ys.takeWhile p := by
            rw [takeWhile_append_of_all t ys ht]
            rfl

theorem dropWhile_append_of_all {p : Char → Bool} :
    ∀ xs ys : List Char, (∀ c ∈ xs, p c = true) →
      (xs ++ ys).dropWhile p = ys.dropWhile p
  | [], _, _ => by simp
  | a :: t, ys, h => by
      have hpa : p a = true := h a (List.mem_cons_self a t)
      rw [List.cons_append, List.dropWhile_cons, if_pos hpa]
      exact dropWhile_append_of_all t ys (fun c hc => h c (List.mem_cons_of_mem a hc))

theorem takeWhile_eq_self_of_all {p : Char → Bool} (xs : List Char)
    (h : ∀ c ∈ xs, p c = true) : xs.takeWhile p = xs := by
  have := takeWhile_append_of_all xs [] h
  simpa using this

theorem dropWhile_eq_nil_of_all {p : Char → Bool} (xs : List Char)
    (h : ∀ c ∈ xs, p c = true) : xs.dropWhile p = [] := by
  have := dropWhile_append_of_all xs [] h
  simpa using this

theorem dropWhile_ne_head {p : Char → Bool} (l : List Char)
    (h : ∀ c ∈ l.take 1, p c = false) : l.dropWhile p = l := by
  cases l with
  | nil => rfl
  | cons a l =>
      have ha : p a = false := h a (by simp)
      simp [List.dropWhile_cons, ha]

/-- A string whose first and last characters are not whitespace is
unchanged by `pyStrip`. -/
theorem pyStrip_eq_self (l : List Char)
    (h1 : ∀ c ∈ l.take 1, isPySpace c = false)
    (h2 : ∀ c ∈ l.reverse.take 1, isPySpace c = false) :
    pyStrip ⟨l⟩ = ⟨l⟩ := by
  unfold pyStrip
  rw [show (String.mk l).data = l from rfl]
  rw [dropWhile_ne_head l h1, dropWhile_ne_head l.reverse h2, List.reverse_reverse]

theorem render4_digits (n : Nat) : ∀ c ∈ render4 n, isDigitB c = true := by
  intro c hc
  simp only [render4, List.mem_cons, List.not_mem_nil, or_false] at hc
  rcases hc with h | h | h | h <;> subst h <;> exact isDigitB_digitChar_mod _

theorem render2_digits (n : Nat) : ∀ c ∈ render2 n, isDigitB c = true := by
  intro c hc
  simp only [render2, List.mem_cons, List.not_mem_nil, or_false] at hc
  rcases hc with h | h <;> subst h <;> exact isDigitB_digitChar_mod _

theorem strftimeYmd_data (t : Ymd) :
    (strftimeYmd t).data =
      render4 t.y.toNat ++ ('-' :: (render2 t.m.toNat ++ ('-' :: render2 t.d.toNat))) := by
  simp [strftimeYmd, render4, render2]

theorem pyStrip_strftime (t : Ymd) :
    pyStrip (strftimeYmd t) = strftimeYmd t := by
  have e : strftimeYmd t = ⟨(strftimeYmd t).data⟩ := rfl
  rw [e]
  apply pyStrip_eq_self
  · intro c hc
    have e2 : (strftimeYmd t).data.take 1 = [Nat.digitChar (t.y.toNat / 1000 % 10)] := rfl
    rw [e2] at hc
    simp at hc
    subst hc
    exact not_space_digitChar_mod _
  · intro c hc
    have e2 : (strftimeYmd t).data.reverse.take 1 = [Nat.digitChar (t.d.toNat % 10)] := rfl
    rw [e2] at hc
    simp at hc
    subst hc
    exact not_space_digitChar_mod _

theorem isDigitB_dash : isDigitB '-' = false := rfl

theorem splitDateTokens_strftime (t : Ymd) :
    splitDateTokens (strftimeYmd t).data =
      some (render4 t.y.toNat, '-', render2 t.m.toNat, '-', render2 t.d.toNat) := by
  rw [strftimeYmd_data]
  unfold splitDateTokens
  rw [takeWhile_append_of_all _ _ (render4_digits _),
    dropWhile_append_of_all _ _ (render4_digits _)]
  simp only [List.takeWhile_cons, List.dropWhile_cons, isDigitB_dash,
    Bool.false_eq_true, if_false, List.append_nil]
  rw [takeWhile_append_of_all _ _ (render2_digits _),
    dropWhile_append_of_all _ _ (render2_digits _)]
  simp only [List.takeWhile_cons, List.dropWhile_cons, isDigitB_dash,
    Bool.false_eq_true, if_false, List.append_nil]
  rw [takeWhile_eq_self_of_all _ (render2_digits _),
    dropWhile_eq_nil_of_all _ (render2_digits _)]
  simp [render4, render2]

/-- The canonical output of `strftimeYmd` on a representable date parses
back, through the ISO branch of the general parse, to the same date. -/
theorem pd_general_parse_strftime (t : Ymd) (h : okYmd t) :
    pd_general_parse (strftimeYmd t) = some t := by
  obtain ⟨hv, hlo, hhi⟩ := h
  have hyr : 1677 ≤ t.y ∧ t.y ≤ 2262 := by
    simp only [ymdLe, tsMinYmd, tsMaxYmd] at hlo hhi
    omega
  obtain ⟨hm1, hm2, hd1, hd2⟩ := hv
  have hd3 : t.d ≤ 31 := le_trans hd2 (daysInMonth_le _ _)
  have hcy : ((t.y.toNat : Int)) = t.y := Int.toNat_of_nonneg (by omega)
  have hcm : ((t.m.toNat : Int)) = t.m := Int.toNat_of_nonneg (by omega)
  have hcd : ((t.d.toNat : Int)) = t.d := Int.toNat_of_nonneg (by omega)
  simp only [pd_general_parse]
  rw [pyStrip_strftime]
  have hne : (strftimeYmd t).data ≠ [] := by
    rw [strftimeYmd_data]
    simp [render4]
  rw [if_neg hne]
  have hall : (strftimeYmd t).data.all isDigitB = false := by
    rw [strftimeYmd_data]
    simp [List.all_append, isDigitB_dash]
  rw [hall]
  simp only [Bool.false_eq_true, if_false]
  rw [splitDateTokens_strftime]
  dsimp only
  have hsep : (('-' = '-' ∨ '-' = '/') ∧ '-' = '-') := ⟨Or.inl rfl, rfl⟩
  rw [if_pos hsep]
  have hlen : (render4 t.y.toNat).length = 4 ∧ 1 ≤ (render2 t.m.toNat).length ∧
      (render2 t.m.toNat).length ≤ 2 ∧ 1 ≤ (render2 t.d.toNat).length ∧
      (render2 t.d.toNat).length ≤ 2 := by
    simp [render4, render2]
  rw [if_pos hlen]
  rw [digitsToNat_render4 _ (by omega), digitsToNat_render2 _ (by omega),
    digitsToNat_render2 _ (by omega)]
  rw [hcy, hcm, hcd]
  unfold mkChecked
  rw [if_pos ⟨⟨hm1, hm2, hd1, hd2⟩, hlo, hhi⟩]

theorem string_mk_ne_empty {l : List Char} (h : l ≠ []) : (⟨l⟩ : String) ≠ "" := by
  intro he
  exact h (by simpa using congrArg String.data he)

/-- Claim C1, counterexample: a numeric cell holding the spreadsheet
serial `1` does not normalize to `1899-12-31`.  The general
`pd.to_datetime` parse never fails on a number — it reads it as
nanoseconds since the Unix epoch — so the Excel-serial branch is
unreachable for `int`/`float` cells and the result is `1970-01-01`. -/
theorem claim_C1_counterexample :
    normalize_date_scalar (.num 1) = "1970-01-01" ∧
    ("1970-01-01" : String) ≠ "1899-12-31" := by
  constructor
  · decide
  · decide

/-- Claim C1, amended: serials reach the 1899-12-30 epoch interpretation
only as digit strings whose value is below 1000 (which the general parse
rejects as "not likely a datetime"); in particular the string serial "1"
normalizes to "1899-12-31" and "0" to "1899-12-30", and day number -25569
is indeed 1899-12-30.  Numeric cells are consumed by the general parse as
nanoseconds since 1970-01-01 and never reach the serial branch. -/
theorem claim_C1_amended :
    normalize_date_scalar (.str "1") = "1899-12-31" ∧
    normalize_date_scalar (.str "0") = "1899-12-30" ∧
    civilOfZ (-25569) = ⟨1899, 12, 30⟩ ∧
    (∀ l : List Char, l ≠ [] → (∀ c ∈ l, isDigitB c = true) →
      digitsToNat l < 1000 →
      normalize_date_scalar (.str ⟨l⟩) =
        strftimeYmd (civilOfZ (-25569 + (digitsToNat l : Int)))) ∧
    (∀ v : Int, -9223372036854775808 < v → v < 9223372036854775808 →
      normalize_date_scalar (.num v) =
        strftimeYmd (civilOfZ (v / 86400000000000))) := by
  refine ⟨by decide, by decide, civilOfZ_excel_origin, ?_, ?_⟩
  · intro l hne hall hlt
    have hstrip : pyStrip ⟨l⟩ = ⟨l⟩ := by
      apply pyStrip_eq_self
      · intro c hc
        exact not_space_of_digit c (hall c (List.take_subset _ _ hc))
      · intro c hc
        exact not_space_of_digit c
          (hall c (List.mem_reverse.mp (List.take_subset _ _ hc)))
    simp only [normalize_date_scalar]
    rw [hstrip, if_neg (string_mk_ne_empty hne)]
    have hgen : pd_general_parse ⟨l⟩ = none := by
      simp only [pd_general_parse]
      rw [hstrip]
      rw [show (⟨l⟩ : String).data = l from rfl]
      rw [if_neg hne]
      rw [List.all_eq_true.mpr hall]
      simp only [if_true]
      unfold parseBareDigits
      rw [if_pos hlt]
    rw [hgen]
    dsimp only
    have hser : serialValue (⟨l⟩ : String).data = some (digitsToNat l) := by
      unfold serialValue
      rw [show (⟨l⟩ : String).data = l from rfl]
      rw [takeWhile_eq_self_of_all _ hall, dropWhile_eq_nil_of_all _ hall]
      rw [if_neg hne]
    rw [hser]
    dsimp only
    have hex : excelSerialDate ((digitsToNat l : Int)) =
        some (civilOfZ (-25569 + (digitsToNat l : Int))) := by
      unfold excelSerialDate
      rw [if_pos (by unfold tsMinZ tsMaxZ; omega)]
    rw [hex]
  · intro v h1 h2
    simp only [normalize_date_scalar]
    unfold pd_num_parse
    rw [if_pos ⟨h1, h2⟩]

/-- Claim C1, amended, witness: the digit-string rule at "7" and the
nanosecond rule at one day's worth of nanoseconds. -/
theorem claim_C1_amended_witness :
    normalize_date_scalar (.str ⟨['7']⟩) =
      strftimeYmd (civilOfZ (-25569 + (digitsToNat ['7'] : Int))) ∧
    normalize_date_scalar (.num 86400000000000) =
      strftimeYmd (civilOfZ ((86400000000000 : Int) / 86400000000000)) := by
  constructor
  · exact claim_C1_amended.2.2.2.1 ['7'] (by decide) (by decide) (by decide)
  · exact claim_C1_amended.2.2.2.2 86400000000000 (by decide) (by decide)

/-- Claim C3: `normalize_date_scalar` is total — on every cell it returns
a string that is either empty or of the shape `YYYY-MM-DD`; `None`, `NaN`
and blank strings yield `""` immediately. -/
theorem claim_C3 :
    (∀ x : RawCell, normalize_date_scalar x = "" ∨
      isYYYYMMDD (normalize_date_scalar x) = true) ∧
    normalize_date_scalar .pynone = "" ∧
    normalize_date_scalar .nan = "" ∧
    (∀ s : String, pyStrip s = "" → normalize_date_scalar (.str s) = "") := by
  refine ⟨?_, rfl, rfl, ?_⟩
  · intro x
    rcases normalize_output x with he | ⟨t, _, heq⟩
    · exact Or.inl he
    · rw [heq]
      exact Or.inr (isYYYYMMDD_strftime t)
  · intro s hs
    simp only [normalize_date_scalar]
    rw [if_pos hs]

/-- Claim C3, witness: the blank-string rule at a whitespace cell. -/
theorem claim_C3_witness : normalize_date_scalar (.str "   ") = "" :=
  claim_C3.2.2.2 "   " (by decide)

/-- Claim C7, counterexample: idempotence fails on the boundary output
`"1677-09-21"`.  A numeric cell a little above `Timestamp.min` formats to
the partial day 1677-09-21, but that string re-parses to the midnight
timestamp 1677-09-21T00:00, which is out of bounds, so renormalizing
yields `""`. -/
theorem claim_C7_counterexample :
    normalize_date_scalar (.num (-9223372036854775000)) = "1677-09-21" ∧
    normalize_date_scalar
      (.str (normalize_date_scalar (.num (-9223372036854775000)))) = "" := by
  constructor
  · decide
  · decide

/-- Claim C7, amended: `normalize_date_scalar` is idempotent on every
non-empty output except the single boundary date `"1677-09-21"` (the only
producible date below the first midnight-representable timestamp):
feeding any other output back in reproduces it, through the ISO branch of
the general parse. -/
theorem claim_C7_amended (x : RawCell)
    (h1 : normalize_date_scalar x ≠ "")
    (h2 : normalize_date_scalar x ≠ "1677-09-21") :
    normalize_date_scalar (.str (normalize_date_scalar x)) =
      normalize_date_scalar x := by
  rcases normalize_output x with he | ⟨t, hok | hsliver, heq⟩
  · exact absurd he h1
  · rw [heq]
    simp only [normalize_date_scalar]
    rw [pyStrip_strftime]
    have hne : strftimeYmd t ≠ "" := by
      rw [show strftimeYmd t = (⟨(strftimeYmd t).data⟩ : String) from rfl]
      apply string_mk_ne_empty
      rw [strftimeYmd_data]
      simp [render4]
    rw [if_neg hne, pd_general_parse_strftime t hok]
  · exfalso
    rw [hsliver] at heq
    exact h2 (heq.trans (by decide))

/-- Claim C7, amended, witness: idempotence at a concrete parsed date. -/
theorem claim_C7_amended_witness :
    normalize_date_scalar (.str (normalize_date_scalar (.str "31/12/2024"))) =
      normalize_date_scalar (.str "31/12/2024") :=
  claim_C7_amended (.str "31/12/2024") (by decide) (by decide)

/-- Model of pandas `astype(str)` on one `dtype=str` cell (app.py lines
204, 210-213): a string stays itself; a missing value (the float `NaN`)
renders as the literal string "nan". -/
def astype_str : Option String → String
  | some s => s
  | none => "nan"

/-- Embedding of a `dtype=str` cell as `normalize_date_scalar` input
(app.py line 212 applies the normalizer to the raw column): a missing
cell is the float `NaN`. -/
def cellToRaw : Option String → RawCell
  | some s => .str s
  | none => .nan

/-- The five per-field selectbox results (app.py lines 184-188): a source
column name, or the placeholder `"(pilih)"` when unresolved. -/
structure Selections where
  src_no : String
  src_nama : String
  src_tmpl : String
  src_tgll : String
  src_jenis : String

/-- One selectbox value as an optional column (app.py lines 191-195:
`src if src != "(pilih)" else None`). -/
def selOpt (s : String) : Option String :=
  if s = "(pilih)" then none else some s

/-- Model of `required_map` (app.py lines 190-196) as an ordered
association list (Python dicts preserve insertion order). -/
def required_map (sel : Selections) : List (String × Option String) :=
  [("NO_PESERTA", selOpt sel.src_no), ("NAMA", selOpt sel.src_nama),
   ("TMPT_LAHIR", selOpt sel.src_tmpl), ("TGL_LAHIR", selOpt sel.src_tgll),
   ("JENIS_TES", selOpt sel.src_jenis)]

/-- Model of `missing` (app.py line 198): the logical fields with no
resolved source column, in declaration order. -/
def missing (sel : Selections) : List String :=
  ((required_map sel).filter (fun kv => kv.2.isNone)).map (fun kv => kv.1)

/-- The selected institution (app.py lines 172-174). -/
structure Institution where
  id : String
  nama : String

/-- The three sidebar default values (app.py lines 31-33), integers. -/
structure Defaults where
  id_pendidikan : Int
  id_jabatan : Int
  id_jenis_jabatan : Int

/-- One row of the standard work table (app.py lines 208-221), all eleven
columns as strings. -/
structure WorkRow where
  NIP : String
  NAMA : String
  TMPT_LAHIR : String
  TGL_LAHIR : String
  JENIS_TES : String
  UNIT_KERJA : String
  UNIT_KERJA_INDUK : String
  ID_INSTANSI : String
  ID_PENDIDIKAN : String
  ID_JABATAN : String
  ID_JENIS_JABATAN : String
deriving DecidableEq, Repr

/-- Model of the per-row transform (app.py lines 204-221): `NIP` is the
text value stripped and with one trailing `.0` removed (lines 204-206);
`NAMA`, `TMPT_LAHIR`, `JENIS_TES` are stripped text; `TGL_LAHIR` goes
through the date normalizer; the remaining columns are the institution
name / id and the three defaults rendered as `str(int(v))`.  Reached only
when `missing sel = []`, in which case each selection is the resolved
source column name. -/
def transformRow (sel : Selections) (inst : Institution) (dfl : Defaults)
    (r : String → Option String) : WorkRow where
  NIP := strip_dot0 (pyStrip (astype_str (r sel.src_no)))
  NAMA := pyStrip (astype_str (r sel.src_nama))
  TMPT_LAHIR := pyStrip (astype_str (r sel.src_tmpl))
  TGL_LAHIR := normalize_date_scalar (cellToRaw (r sel.src_tgll))
  JENIS_TES := pyStrip (astype_str (r sel.src_jenis))
  UNIT_KERJA := inst.nama
  UNIT_KERJA_INDUK := inst.nama
  ID_INSTANSI := inst.id
  ID_PENDIDIKAN := toString dfl.id_pendidikan
  ID_JABATAN := toString dfl.id_jabatan
  ID_JENIS_JABATAN := toString dfl.id_jenis_jabatan

/-- The work table: the transform applied to every participant row. -/
def build_work (sel : Selections) (inst : Institution) (dfl : Defaults)
    (rows : List (String → Option String)) : List WorkRow :=
  rows.map (transformRow sel inst dfl)

/-- Model of the blank-`JENIS_TES` check (app.py line 231):
`work["JENIS_TES"].isna().all() or (work["JENIS_TES"].str.len() == 0).all()`.
After `astype(str)` no value is NaN, so `isna().all()` holds exactly for
an empty table (pandas `all` of an empty column is True); the second
disjunct tests for all-zero-length strings. -/
def jenis_all_blank (ws : List WorkRow) : Bool :=
  ws.isEmpty || ws.all (fun w => w.JENIS_TES.length == 0)

/-- Code-point lexicographic comparison of character lists: the order of
Python string comparison, which the pandas groupby key sort uses. -/
def lexLeChars : List Char → List Char → Bool
  | [], _ => true
  | _ :: _, [] => false
  | a :: xs, b :: ys =>
      if a.toNat < b.toNat then true
      else if b.toNat < a.toNat then false
      else lexLeChars xs ys

/-- Python string `<=` (code-point lexicographic). -/
def strLeB (a b : String) : Bool := lexLeChars a.data b.data

theorem lexLeChars_total : ∀ a b : List Char,
    lexLeChars a b = true ∨ lexLeChars b a = true
  | [], _ => Or.inl rfl
  | _ :: _, [] => Or.inr rfl
  | x :: xs, y :: ys => by
      by_cases h1 : x.toNat < y.toNat
      · left
        simp [lexLeChars, h1]
      · by_cases h2 : y.toNat < x.toNat
        · right
          simp [lexLeChars, h2]
        · have := lexLeChars_total xs ys
          simp only [lexLeChars, if_neg h1, if_neg h2]
          exact this

theorem lexLeChars_trans : ∀ a b c : List Char, lexLeChars a b = true →
    lexLeChars b c = true → lexLeChars a c = true
  | [], _, _, _, _ => rfl
  | _ :: _, [], _, h1, _ => by simp [lexLeChars] at h1
  | _ :: _, _ :: _, [], _, h2 => by simp [lexLeChars] at h2
  | x :: xs, y :: ys, z :: zs, h1, h2 => by
      rcases Nat.lt_trichotomy x.toNat y.toNat with hxy | hxy | hxy
      · rcases Nat.lt_trichotomy y.toNat z.toNat with hyz | hyz | hyz
        · simp [lexLeChars, show x.toNat < z.toNat by omega]
        · simp [lexLeChars, show x.toNat < z.toNat by omega]
        · simp [lexLeChars, show ¬y.toNat < z.toNat by omega, hyz] at h2
      · rcases Nat.lt_trichotomy y.toNat z.toNat with hyz | hyz | hyz
        · simp [lexLeChars, show x.toNat < z.toNat by omega]
        · simp only [lexLeChars, if_neg (show ¬x.toNat < y.toNat by omega),
            if_neg (show ¬y.toNat < x.toNat by omega)] at h1
          simp only [lexLeChars, if_neg (show ¬y.toNat < z.toNat by omega),
            if_neg (show ¬z.toNat < y.toNat by omega)] at h2
          simp only [lexLeChars, if_neg (show ¬x.toNat < z.toNat by omega),
            if_neg (show ¬z.toNat < x.toNat by omega)]
          exact lexLeChars_trans xs ys zs h1 h2
        · simp [lexLeChars, show ¬y.toNat < z.toNat by omega, hyz] at h2
      · simp [lexLeChars, show ¬x.toNat < y.toNat by omega, hxy] at h1

instance : IsTotal String (fun a b => strLeB a b = true) :=
  ⟨fun a b => lexLeChars_total a.data b.data⟩

instance : IsTrans String (fun a b => strLeB a b = true) :=
  ⟨fun a b c => lexLeChars_trans a.data b.data c.data⟩

/-- Ascending sort of a key list by the Python string order. -/
def sortKeys (l : List String) : List String :=
  List.insertionSort (fun a b => strLeB a b = true) l

theorem sortKeys_sorted (l : List String) :
    List.Sorted (fun a b => strLeB a b = true) (sortKeys l) :=
  List.sorted_insertionSort _ l

theorem sortKeys_perm (l : List String) : List.Perm (sortKeys l) l :=
  List.perm_insertionSort _ l

/-- First-seen deduplication of a key list. -/
def dedupKeys (l : List String) : List String :=
  l.foldl (fun acc k => if k ∈ acc then acc else acc ++ [k]) []

/-- Model of `work.groupby("JENIS_TES", dropna=False)` and the dict
comprehension over it (app.py lines 235-238): the distinct key values in
the pandas iteration order — ascending string sort, the `groupby` default
`sort=True` — each paired with the rows having that key, in original row
order.  After `astype(str)` no key is NaN, so `dropna=False` only means
blank-string keys form an ordinary group.  The `JENIS_TES` column itself
is dropped from each subtable; here a group keeps whole `WorkRow`s and
the drop is modelled by the exported column list `grouped_cols`. -/
def groups (ws : List WorkRow) : List (String × List WorkRow) :=
  (sortKeys (dedupKeys (ws.map (fun w => w.JENIS_TES)))).map
    (fun k => (k, ws.filter (fun w => w.JENIS_TES == k)))

/-- Outcome of the transform-and-group stage: halt at the missing-column
check (`st.error` + `st.stop`, app.py lines 199-201), halt at the
blank-`JENIS_TES` check (`st.info` + `st.stop`, lines 231-233), or the
groups. -/
inductive PipelineResult where
  | stopMissing (fields : List String) : PipelineResult
  | stopInfo (msg : String) : PipelineResult
  | ok (gs : List (String × List WorkRow)) : PipelineResult
deriving DecidableEq

/-- Model of the pipeline stage from `required_map` to `groups` (app.py
lines 190-238). -/
def run_pipeline (sel : Selections) (inst : Institution) (dfl : Defaults)
    (rows : List (String → Option String)) : PipelineResult :=
  if missing sel ≠ [] then .stopMissing (missing sel)
  else
    let ws := build_work sel inst dfl rows
    if jenis_all_blank ws then
      .stopInfo "Kolom JENIS_TES kosong — tidak ada pembagian."
    else .ok (groups ws)

/-- The output column order (`out_cols`, app.py lines 224-227; the work
table is reindexed to this order on line 228). -/
def out_cols : List String :=
  ["NIP", "NAMA", "TMPT_LAHIR", "TGL_LAHIR", "UNIT_KERJA", "UNIT_KERJA_INDUK",
   "ID_INSTANSI", "ID_PENDIDIKAN", "ID_JABATAN", "ID_JENIS_JABATAN", "JENIS_TES"]

/-- Column access on a work row by column name. -/
def getCol (w : WorkRow) (c : String) : String :=
  if c = "NIP" then w.NIP
  else if c = "NAMA" then w.NAMA
  else if c = "TMPT_LAHIR" then w.TMPT_LAHIR
  else if c = "TGL_LAHIR" then w.TGL_LAHIR
  else if c = "JENIS_TES" then w.JENIS_TES
  else if c = "UNIT_KERJA" then w.UNIT_KERJA
  else if c = "UNIT_KERJA_INDUK" then w.UNIT_KERJA_INDUK
  else if c = "ID_INSTANSI" then w.ID_INSTANSI
  else if c = "ID_PENDIDIKAN" then w.ID_PENDIDIKAN
  else if c = "ID_JABATAN" then w.ID_JABATAN
  else if c = "ID_JENIS_JABATAN" then w.ID_JENIS_JABATAN
  else ""

/-- The columns of each grouped table: the `out_cols` order with
`JENIS_TES` dropped (`drop(columns=["JENIS_TES"])`, app.py line 236). -/
def grouped_cols : List String := out_cols.filter (fun c => c != "JENIS_TES")

/-- One grouped record as exported: its named fields in the grouped
column order. -/
def exportRow (w : WorkRow) : List (String × String) :=
  grouped_cols.map (fun c => (c, getCol w c))

theorem mem_dedupAux (l acc : List String) (y : String) :
    y ∈ l.foldl (fun acc k => if k ∈ acc then acc else acc ++ [k]) acc ↔
      y ∈ acc ∨ y ∈ l := by
  induction l generalizing acc with
  | nil => simp
  | cons a l ih =>
      simp only [List.foldl_cons]
      by_cases h : a ∈ acc
      · rw [if_pos h, ih]
        simp only [List.mem_cons]
        constructor
        · rintro (hy | hy)
          · exact Or.inl hy
          · exact Or.inr (Or.inr hy)
        · rintro (hy | rfl | hy)
          · exact Or.inl hy
          · exact Or.inl h
          · exact Or.inr hy
      · rw [if_neg h, ih]
        simp only [List.mem_append, List.mem_singleton, List.mem_cons]
        tauto

theorem mem_dedupKeys (y : String) (l : List String) :
    y ∈ dedupKeys l ↔ y ∈ l := by
  unfold dedupKeys
  rw [mem_dedupAux]
  simp

theorem nodup_dedupAux (l acc : List String) (h : acc.Nodup) :
    (l.foldl (fun acc k => if k ∈ acc then acc else acc ++ [k]) acc).Nodup := by
  induction l generalizing acc with
  | nil => simpa
  | cons a l ih =>
      simp only [List.foldl_cons]
      by_cases hm : a ∈ acc
      · rw [if_pos hm]
        exact ih _ h
      · rw [if_neg hm]
        apply ih
        simp only [List.nodup_append, List.nodup_cons, List.not_mem_nil,
          not_false_iff, List.nodup_nil, and_true, true_and, List.disjoint_singleton]
        exact ⟨h, hm⟩

theorem nodup_dedupKeys (l : List String) : (dedupKeys l).Nodup :=
  nodup_dedupAux l [] List.nodup_nil

theorem groups_keys (ws : List WorkRow) :
    (groups ws).map Prod.fst =
      sortKeys (dedupKeys (ws.map (fun w => w.JENIS_TES))) := by
  unfold groups
  rw [List.map_map]
  have h : (Prod.fst ∘ fun k => (k, List.filter (fun w => w.JENIS_TES == k) ws)) =
      id := rfl
  rw [h, List.map_id]

theorem groups_keys_nodup (ws : List WorkRow) :
    ((groups ws).map Prod.fst).Nodup := by
  rw [groups_keys]
  exact ((sortKeys_perm _).nodup_iff).mpr (nodup_dedupKeys _)

theorem mem_groups_keys (ws : List WorkRow) (w : WorkRow) (h : w ∈ ws) :
    w.JENIS_TES ∈ (groups ws).map Prod.fst := by
  rw [groups_keys, (sortKeys_perm _).mem_iff, mem_dedupKeys]
  exact List.mem_map_of_mem _ h

theorem groups_entry (ws : List WorkRow) (kg : String × List WorkRow)
    (h : kg ∈ groups ws) :
    kg.2 = ws.filter (fun w => w.JENIS_TES == kg.1) := by
  unfold groups at h
  obtain ⟨k, _, rfl⟩ := List.mem_map.mp h
  rfl

theorem length_filter_split (ws : List WorkRow) (p : WorkRow → Bool) :
    (ws.filter p).length + (ws.filter (fun w => !(p w))).length = ws.length := by
  induction ws with
  | nil => rfl
  | cons w l ih =>
      by_cases h : p w <;> simp [List.filter_cons, h] <;> omega

theorem filter_key_of_ne (ws : List WorkRow) (k k2 : String) (hne : k2 ≠ k) :
    ((ws.filter (fun w => !(w.JENIS_TES == k))).filter
        (fun w => w.JENIS_TES == k2)) =
      ws.filter (fun w => w.JENIS_TES == k2) := by
  induction ws with
  | nil => rfl
  | cons w l ih =>
      by_cases h : w.JENIS_TES = k2
      · have h1 : (w.JENIS_TES == k2) = true := by simp [h]
        have h2 : (w.JENIS_TES == k) = false := by simp [h, hne]
        simp [List.filter_cons, h1, h2, ih]
      · have h1 : (w.JENIS_TES == k2) = false := by simp [h]
        by_cases h3 : w.JENIS_TES = k
        · have h2 : (w.JENIS_TES == k) = true := by simp [h3]
          simp [List.filter_cons, h1, h2, ih]
        · have h2 : (w.JENIS_TES == k) = false := by simp [h3]
          simp [List.filter_cons, h1, h2, ih]

theorem sum_filter_lengths (keys : List String) (ws : List WorkRow)
    (hnd : keys.Nodup)
    (hcov : ∀ w ∈ ws, w.JENIS_TES ∈ keys) :
    (keys.map (fun k => (ws.filter (fun w => w.JENIS_TES == k)).length)).sum =
      ws.length := by
  induction keys generalizing ws with
  | nil =>
      cases ws with
      | nil => rfl
      | cons w l => exact absurd (hcov w (by simp)) (by simp)
  | cons k ks ih =>
      simp only [List.map_cons, List.sum_cons]
      have hnd2 := List.nodup_cons.mp hnd
      have hmap : ks.map (fun k2 => (ws.filter (fun w => w.JENIS_TES == k2)).length) =
          ks.map (fun k2 => (((ws.filter (fun w => !(w.JENIS_TES == k))).filter
            (fun w => w.JENIS_TES == k2)).length)) := by
        apply List.map_congr_left
        intro k2 hk2
        rw [filter_key_of_ne ws k k2 (fun he => hnd2.1 (he ▸ hk2))]
      rw [hmap, ih (ws.filter (fun w => !(w.JENIS_TES == k))) hnd2.2 ?_]
      · exact length_filter_split ws _
      · intro w hw
        obtain ⟨hw1, hw2⟩ := List.mem_filter.mp hw
        have hcv := hcov w hw1
        have hw3 : w.JENIS_TES ≠ k := by simpa using hw2
        rcases List.mem_cons.mp hcv with he | hks
        · exact absurd he hw3
        · exact hks

/-- Concrete selections resolving the five fields to columns A..E. -/
def demoSel : Selections := ⟨"A", "B", "C", "D", "E"⟩

/-- Concrete institution. -/
def demoInst : Institution := ⟨"12", "Dinas X"⟩

/-- The documented sidebar defaults (app.py lines 31-33). -/
def demoDfl : Defaults := ⟨45, 10932, 4⟩

/-- A participant row whose every cell is the blank string " ". -/
def blankCellRow : String → Option String := fun _ => some " "

/-- A participant row whose every cell is missing (NaN). -/
def nanCellRow : String → Option String := fun _ => none

/-- A work row with the given `JENIS_TES` value and blank other fields. -/
def wrowJ (j : String) : WorkRow := ⟨"", "", "", "", j, "", "", "", "", "", ""⟩

/-- Claim C2, counterexample: with input keys in the order "B" then "A",
the groups dict iterates its keys as ["A", "B"] — the pandas `groupby`
default `sort=True` orders keys ascending — and not in first-seen order
["B", "A"] as the claim states. -/
theorem claim_C2_counterexample :
    (groups [wrowJ "B", wrowJ "A"]).map Prod.fst = ["A", "B"] ∧
    (groups [wrowJ "B", wrowJ "A"]).map Prod.fst ≠ ["B", "A"] := by
  constructor
  · decide
  · decide

/-- Claim C2, amended: grouping is a stable partition of the work rows by
the (trimmed) `JENIS_TES` value — every group is the subsequence of rows
having that key, in original order, blank keys included — and the
distinct keys are distinct and cover every row; but they appear in
ascending code-point order (the pandas `groupby` key sort), not in
first-seen order. -/
theorem claim_C2_amended (ws : List WorkRow) :
    List.Sorted (fun a b => strLeB a b = true) ((groups ws).map Prod.fst) ∧
    (∀ kg ∈ groups ws, kg.2 = ws.filter (fun w => w.JENIS_TES == kg.1)) ∧
    ((groups ws).map Prod.fst).Nodup ∧
    (∀ w ∈ ws, w.JENIS_TES ∈ (groups ws).map Prod.fst) := by
  refine ⟨?_, groups_entry ws, groups_keys_nodup ws, mem_groups_keys ws⟩
  rw [groups_keys]
  exact sortKeys_sorted _

/-- Claim C2, amended, witness: the group of key "A" in a concrete table. -/
theorem claim_C2_amended_witness :
    (("A", [wrowJ "A"]) : String × List WorkRow).2 =
      [wrowJ "B", wrowJ "A"].filter
        (fun w => w.JENIS_TES == (("A", [wrowJ "A"]) : String × List WorkRow).1) :=
  (claim_C2_amended [wrowJ "B", wrowJ "A"]).2.1 _ (by decide)

/-- Claim C5: grouping completeness — the group sizes sum to the row
count; a row belongs to a group exactly when its (trimmed) `JENIS_TES`
equals the group key; the keys are pairwise distinct and cover every
row.  Together these say each row lands in exactly one group and the
groups reconstruct the table. -/
theorem claim_C5 (ws : List WorkRow) :
    (((groups ws).map (fun kg => kg.2.length)).sum = ws.length) ∧
    (∀ kg ∈ groups ws, ∀ w ∈ ws, (w ∈ kg.2 ↔ w.JENIS_TES = kg.1)) ∧
    ((groups ws).map Prod.fst).Nodup ∧
    (∀ w ∈ ws, w.JENIS_TES ∈ (groups ws).map Prod.fst) := by
  have hnd : (sortKeys (dedupKeys (ws.map (fun w => w.JENIS_TES)))).Nodup :=
    ((sortKeys_perm _).nodup_iff).mpr (nodup_dedupKeys _)
  have hcov : ∀ w ∈ ws,
      w.JENIS_TES ∈ sortKeys (dedupKeys (ws.map (fun w => w.JENIS_TES))) := by
    intro w hw
    rw [(sortKeys_perm _).mem_iff, mem_dedupKeys]
    exact List.mem_map_of_mem _ hw
  refine ⟨?_, ?_, groups_keys_nodup ws, mem_groups_keys ws⟩
  · unfold groups
    rw [List.map_map]
    have he : ((fun kg : String × List WorkRow => kg.2.length) ∘
        fun k => (k, List.filter (fun w => w.JENIS_TES == k) ws)) =
        fun k => (List.filter (fun w => w.JENIS_TES == k) ws).length := rfl
    rw [he]
    exact sum_filter_lengths _ ws hnd hcov
  · intro kg hkg w hw
    rw [groups_entry ws kg hkg, List.mem_filter]
    simp [hw]

/-- Claim C5, witness: size sum and membership at a concrete table. -/
theorem claim_C5_witness :
    (((groups [wrowJ "B", wrowJ "A"]).map (fun kg => kg.2.length)).sum =
      ([wrowJ "B", wrowJ "A"] : List WorkRow).length) ∧
    (wrowJ "A" ∈ (("A", [wrowJ "A"]) : String × List WorkRow).2 ↔
      (wrowJ "A").JENIS_TES = (("A", [wrowJ "A"]) : String × List WorkRow).1) :=
  ⟨(claim_C5 [wrowJ "B", wrowJ "A"]).1,
    (claim_C5 [wrowJ "B", wrowJ "A"]).2.1 _ (by decide) _ (by decide)⟩

/-- Claim C4, counterexample: on a table whose `JENIS_TES` cells are all
blank strings, the pipeline does not produce a single blank-key group —
it stops at the informational check (`st.info` + `st.stop`, app.py lines
231-233) before the grouping ever runs, producing no groups at all. -/
theorem claim_C4_counterexample :
    run_pipeline demoSel demoInst demoDfl [blankCellRow] =
      .stopInfo "Kolom JENIS_TES kosong — tidak ada pembagian." ∧
    run_pipeline demoSel demoInst demoDfl [blankCellRow] ≠
      .ok (groups (build_work demoSel demoInst demoDfl [blankCellRow])) := by
  constructor
  · decide
  · decide

/-- Claim C4, amended: when every row's `JENIS_TES` is blank after
trimming, the pipeline reports the informational "no partition" message
and halts before grouping, producing no groups (rather than one blank-key
group).  Rows with an absent (NaN) `JENIS_TES` do not reach this check:
they become the string "nan" (see claim C10). -/
theorem claim_C4_amended (sel : Selections) (inst : Institution)
    (dfl : Defaults) (rows : List (String → Option String))
    (hm : missing sel = [])
    (hb : ∀ r ∈ rows, pyStrip (astype_str (r sel.src_jenis)) = "") :
    run_pipeline sel inst dfl rows =
      .stopInfo "Kolom JENIS_TES kosong — tidak ada pembagian." := by
  have hblank : jenis_all_blank (build_work sel inst dfl rows) = true := by
    unfold jenis_all_blank
    have hall : (build_work sel inst dfl rows).all
        (fun w => w.JENIS_TES.length == 0) = true := by
      rw [List.all_eq_true]
      intro w hw
      obtain ⟨r, hr, rfl⟩ := List.mem_map.mp hw
      show ((pyStrip (astype_str (r sel.src_jenis))).length == 0) = true
      rw [hb r hr]
      decide
    rw [hall]
    simp
  simp only [run_pipeline]
  rw [if_neg (by simp [hm]), if_pos hblank]

/-- Claim C4, amended, witness: the halt at a concrete all-blank table. -/
theorem claim_C4_amended_witness :
    run_pipeline demoSel demoInst demoDfl [blankCellRow, blankCellRow] =
      .stopInfo "Kolom JENIS_TES kosong — tidak ada pembagian." :=
  claim_C4_amended demoSel demoInst demoDfl [blankCellRow, blankCellRow]
    (by decide)
    (fun r hr => by
      rcases List.mem_cons.mp hr with he | hr2
      · rw [he]
        decide
      · rw [List.mem_singleton.mp hr2]
        decide)

/-- Claim C6: the `NIP` column is the mapped cell's text, stripped, with
a single trailing literal `.0` removed and everything before it — leading
zeros included — intact: the result is either the stripped text itself or
the stripped text minus its final ".0"; in particular "000123.0" becomes
"000123".  The value is handled purely as text throughout. -/
theorem claim_C6 :
    (∀ (sel : Selections) (inst : Institution) (dfl : Defaults)
        (r : String → Option String),
      (transformRow sel inst dfl r).NIP =
        strip_dot0 (pyStrip (astype_str (r sel.src_no)))) ∧
    (∀ s : String, strip_dot0 s = s ∨ strip_dot0 s ++ ".0" = s) ∧
    strip_dot0 (pyStrip (astype_str (some "000123.0"))) = "000123" ∧
    strip_dot0 (pyStrip (astype_str (some " 000123.0 "))) = "000123" := by
  refine ⟨fun _ _ _ _ => rfl, ?_, by decide, by decide⟩
  intro s
  obtain ⟨l⟩ := s
  unfold strip_dot0
  by_cases h : (String.mk l).data.reverse.take 2 = ['0', '.']
  · right
    rw [if_pos h]
    rw [show (String.mk l).data = l from rfl] at h
    have h2 : l.reverse = ['0', '.'] ++ l.reverse.drop 2 := by
      conv_lhs => rw [← List.take_append_drop 2 l.reverse]
      rw [h]
    have h3 := congrArg List.reverse h2
    rw [List.reverse_reverse, List.reverse_append] at h3
    have h4 : (['0', '.'] : List Char).reverse = ['.', '0'] := rfl
    rw [h4] at h3
    show String.mk ((l.reverse.drop 2).reverse ++ ['.', '0']) = String.mk l
    rw [← h3]
  · left
    rw [if_neg h]

/-- Claim C8: every grouped record exposes its fields in the exact fixed
column order `NIP, NAMA, TMPT_LAHIR, TGL_LAHIR, UNIT_KERJA,
UNIT_KERJA_INDUK, ID_INSTANSI, ID_PENDIDIKAN, ID_JABATAN,
ID_JENIS_JABATAN`, and `JENIS_TES` is not among the grouped columns (the
reindex to `out_cols` followed by `drop(columns=["JENIS_TES"])`). -/
theorem claim_C8 :
    (∀ w : WorkRow, (exportRow w).map Prod.fst =
      ["NIP", "NAMA", "TMPT_LAHIR", "TGL_LAHIR", "UNIT_KERJA",
       "UNIT_KERJA_INDUK", "ID_INSTANSI", "ID_PENDIDIKAN", "ID_JABATAN",
       "ID_JENIS_JABATAN"]) ∧
    "JENIS_TES" ∉ grouped_cols ∧
    out_cols.filter (fun c => c != "JENIS_TES") = grouped_cols := by
  refine ⟨?_, by decide, by decide⟩
  intro w
  unfold exportRow
  rw [List.map_map]
  have h : (Prod.fst ∘ fun c => (c, getCol w c)) = id := rfl
  rw [h, List.map_id]
  decide

/-- Claim C9: when one or more logical fields are unresolved, the
pipeline halts with exactly the list of missing fields (`st.error` +
`st.stop`, app.py lines 198-201) and produces no groups — no partial
output exists. -/
theorem claim_C9 (sel : Selections) (inst : Institution) (dfl : Defaults)
    (rows : List (String → Option String)) (h : missing sel ≠ []) :
    run_pipeline sel inst dfl rows = .stopMissing (missing sel) ∧
    ∀ gs, run_pipeline sel inst dfl rows ≠ .ok gs := by
  have he : run_pipeline sel inst dfl rows = .stopMissing (missing sel) := by
    simp only [run_pipeline]
    rw [if_pos h]
  refine ⟨he, fun gs hgs => ?_⟩
  rw [he] at hgs
  exact PipelineResult.noConfusion hgs

/-- Claim C9, witness: all five fields unresolved halts with the full
field list. -/
theorem claim_C9_witness :
    run_pipeline ⟨"(pilih)", "(pilih)", "(pilih)", "(pilih)", "(pilih)"⟩
      demoInst demoDfl [] =
      .stopMissing ["NO_PESERTA", "NAMA", "TMPT_LAHIR", "TGL_LAHIR", "JENIS_TES"] := by
  have h := (claim_C9 ⟨"(pilih)", "(pilih)", "(pilih)", "(pilih)", "(pilih)"⟩
    demoInst demoDfl [] (by decide)).1
  rw [h]
  decide

theorem dedup_foldl_absorb (l acc : List String) (h : ∀ x ∈ l, x ∈ acc) :
    l.foldl (fun acc k => if k ∈ acc then acc else acc ++ [k]) acc = acc := by
  induction l generalizing acc with
  | nil => rfl
  | cons a t ih =>
      simp only [List.foldl_cons]
      rw [if_pos (h a (by simp))]
      exact ih acc (fun x hx => h x (by simp [hx]))

theorem dedupKeys_const (l : List String) (k : String) (hne : l ≠ [])
    (h : ∀ x ∈ l, x = k) : dedupKeys l = [k] := by
  cases l with
  | nil => exact absurd rfl hne
  | cons a t =>
      have ha : a = k := h a (by simp)
      subst ha
      unfold dedupKeys
      simp only [List.foldl_cons]
      rw [if_neg (by simp), List.nil_append]
      exact dedup_foldl_absorb t [a]
        (fun x hx => by simp [h x (List.mem_cons_of_mem a hx)])

/-- Claim C10: a missing (NaN) cell becomes the literal string "nan"
under `astype(str)`; in particular rows whose `JENIS_TES` cell is missing
are grouped under the key "nan" rather than a blank key, and a table
whose `JENIS_TES` cells are all missing does not trigger the all-blank
degenerate check — the pipeline proceeds to grouping with the single
group key "nan". -/
theorem claim_C10 (sel : Selections) (inst : Institution) (dfl : Defaults)
    (rows : List (String → Option String))
    (hm : missing sel = []) (hne : rows ≠ [])
    (hnan : ∀ r ∈ rows, r sel.src_jenis = none) :
    astype_str none = "nan" ∧
    (∀ w ∈ build_work sel inst dfl rows, w.JENIS_TES = "nan") ∧
    jenis_all_blank (build_work sel inst dfl rows) = false ∧
    run_pipeline sel inst dfl rows =
      .ok (groups (build_work sel inst dfl rows)) ∧
    (groups (build_work sel inst dfl rows)).map Prod.fst = ["nan"] := by
  have hJ : ∀ w ∈ build_work sel inst dfl rows, w.JENIS_TES = "nan" := by
    intro w hw
    obtain ⟨r, hr, rfl⟩ := List.mem_map.mp hw
    show pyStrip (astype_str (r sel.src_jenis)) = "nan"
    rw [hnan r hr]
    decide
  have hwne : build_work sel inst dfl rows ≠ [] := by
    cases rows with
    | nil => exact absurd rfl hne
    | cons r t => simp [build_work]
  have hblank : jenis_all_blank (build_work sel inst dfl rows) = false := by
    unfold jenis_all_blank
    cases hbw : build_work sel inst dfl rows with
    | nil => exact absurd hbw hwne
    | cons w t =>
        have hw : w.JENIS_TES = "nan" := hJ w (by rw [hbw]; simp)
        have hlen : (w.JENIS_TES.length == 0) = false := by
          rw [hw]
          decide
        simp [hlen]
  have hkeys : (groups (build_work sel inst dfl rows)).map Prod.fst = ["nan"] := by
    rw [groups_keys]
    have hconst : ∀ x ∈ (build_work sel inst dfl rows).map
        (fun w => w.JENIS_TES), x = "nan" := by
      intro x hx
      obtain ⟨w, hw, rfl⟩ := List.mem_map.mp hx
      exact hJ w hw
    have hne2 : (build_work sel inst dfl rows).map (fun w => w.JENIS_TES) ≠ [] := by
      cases hbw : build_work sel inst dfl rows with
      | nil => exact absurd hbw hwne
      | cons w t => simp
    rw [dedupKeys_const _ "nan" hne2 hconst]
    rfl
  refine ⟨rfl, hJ, hblank, ?_, hkeys⟩
  simp only [run_pipeline]
  rw [if_neg (by simp [hm])]
  rw [if_neg (by rw [hblank]; simp)]

/-- Claim C10, witness: one all-missing row groups under the key "nan". -/
theorem claim_C10_witness :
    (groups (build_work demoSel demoInst demoDfl [nanCellRow])).map Prod.fst =
      ["nan"] :=
  (claim_C10 demoSel demoInst demoDfl [nanCellRow] (by decide) (by simp)
    (fun r hr => by rw [List.mem_singleton.mp hr]; rfl)).2.2.2.2
